import Mathlib

/-!
Shallow embedding of the `socialsim` package: the metric library
(src/socialsim/metrics/metrics.py) and the orchestration pipeline
(src/socialsim/run.py), together with theorems settling the
specification's claims about them.

Conventions used throughout:
* Python floats are modelled exactly: finite values are rationals and the
  non-finite values nan, inf and -inf are explicit constructors of `Flt`
  (rounding of finite arithmetic is not modelled).
* External library routines that the repository merely calls
  (numpy's bin-edge estimators, the logarithm inside scipy's entropy,
  numpy's sqrt, the measurement-collaborator classes that live in modules
  not present under src/) are abstracted as explicit function parameters
  ("oracles"); everything written in the repository itself is translated
  structurally.
* Python code that can raise is embedded with `Except PyErr`; a Python
  function returning `None` is embedded with `Option`.
* Python default arguments are not repeated in the embedding; each use
  site passes the source's default explicitly and the doc comments record
  them.
-/

namespace Socialsim

/-- Python exception kinds distinguished by the embedded code paths. -/
inductive PyErr where
  | typeError
  | valueError
  | unboundLocalError
  | attributeError
  | generic
deriving DecidableEq

/-- Model of a Python float: an exact rational for finite values, plus the
IEEE-754 non-finite values nan, inf and -inf. -/
inductive Flt where
  | fin (q : ℚ)
  | nan
  | inf
  | ninf
deriving DecidableEq

namespace Flt

/-- IEEE-754 addition on modelled floats (finite arithmetic is exact). -/
def add : Flt → Flt → Flt
  | nan, _ => nan
  | _, nan => nan
  | fin a, fin b => fin (a + b)
  | inf, ninf => nan
  | ninf, inf => nan
  | inf, _ => inf
  | _, inf => inf
  | ninf, _ => ninf
  | _, ninf => ninf

/-- IEEE-754 multiplication on modelled floats. -/
def mul : Flt → Flt → Flt
  | nan, _ => nan
  | _, nan => nan
  | fin a, fin b => fin (a * b)
  | inf, fin b => if b = 0 then nan else if 0 < b then inf else ninf
  | fin a, inf => if a = 0 then nan else if 0 < a then inf else ninf
  | ninf, fin b => if b = 0 then nan else if 0 < b then ninf else inf
  | fin a, ninf => if a = 0 then nan else if 0 < a then ninf else inf
  | inf, inf => inf
  | ninf, ninf => inf
  | inf, ninf => ninf
  | ninf, inf => ninf

/-- IEEE-754 division on modelled floats; numpy emits a warning (not an
exception) on 0/0 and c/0 and produces nan resp. a signed infinity. -/
def div : Flt → Flt → Flt
  | nan, _ => nan
  | _, nan => nan
  | fin a, fin b =>
      if b = 0 then (if a = 0 then nan else if 0 < a then inf else ninf)
      else fin (a / b)
  | inf, fin b => if b < 0 then ninf else inf
  | ninf, fin b => if b < 0 then inf else ninf
  | fin _, inf => fin 0
  | fin _, ninf => fin 0
  | inf, inf => nan
  | inf, ninf => nan
  | ninf, inf => nan
  | ninf, ninf => nan

/-- `np.isfinite` on a modelled float. -/
def isFinite : Flt → Bool
  | fin _ => true
  | _ => false

/-- numpy array sum of a list of modelled floats. -/
def sum (l : List Flt) : Flt := l.foldr add (fin 0)

end Flt

/-! ### Rank-biased overlap (metrics.py lines 356-415)

`rbo_score` in the source first extracts a plain ranked list from each
input data frame (entity column when the frame has two columns, the index
otherwise, lines 381-389); the embedding below takes those extracted
ranked lists directly.  The source then designates the shorter list `S`
and the longer list `L` by sorting the pairs `(len, list)` (line 391);
which list is designated `S` on a length tie does not affect the result,
because only prefix-intersection cardinalities (symmetric in the two
lists) are taken, so the embedding designates by length comparison. -/

/-- Embedding of `rbo_score` (metrics.py lines 356-415) on the extracted
ranked lists: overlaps of the rank-`i` prefixes for `i = 1..s` are
accumulated as `(|set(L[:i]) ∩ set(S[:i])| / i) * p^(i-1)` and the total
is scaled by `1 - p`.  The `simulation is None` guard returns `none`.
The source default for `p` is `0.95`. -/
def rbo_score [DecidableEq α] (ground_truth : List α) (simulation : Option (List α))
    (p : ℚ) : Option ℚ :=
  match simulation with
  | none => none
  | some simulation =>
    let SL := if ground_truth.length ≤ simulation.length
              then (ground_truth, simulation) else (simulation, ground_truth)
    let S := SL.1
    let L := SL.2
    let s := S.length
    if s = 0 then some 0
    else some ((((List.range s).map fun i0 =>
        ((((L.take (i0+1)).toFinset ∩ (S.take (i0+1)).toFinset).card : ℚ) / (i0+1))
          * p ^ i0).sum) * (1 - p))

/-! ### Scalar metrics (metrics.py lines 113-138) -/

/-- Model of a Python scalar argument as passed to the scalar metrics:
a numeric value, a string, or Python's `None`. -/
inductive PyScalar where
  | num (q : ℚ)
  | str (s : String)
  | null
deriving DecidableEq

/-- Modelled from the library: Python's built-in `float()` conversion,
restricted to the literals exercised here.  A numeric argument converts
to itself, `None` raises `TypeError`, and a string raises `ValueError`
unless it parses as a decimal natural-number literal. -/
def pyFloat : PyScalar → Except PyErr ℚ
  | .num q => .ok q
  | .null => .error .typeError
  | .str s =>
    if s.data ≠ [] ∧ s.data.all Char.isDigit then
      .ok ((s.data.foldl (fun n c => 10 * n + (c.toNat - 48)) 0 : ℕ) : ℚ)
    else .error .valueError

/-- Python `ground_truth == 0` on a modelled scalar (a string or `None`
compares unequal to `0` without raising). -/
def pyEqZero : PyScalar → Bool
  | .num q => q == 0
  | _ => false

/-- Embedding of `absolute_difference` (metrics.py lines 113-123):
`try: return np.abs(float(simulation) - float(ground_truth))` with a
handler that catches `TypeError` only and returns `None`.  Python
evaluates `float(simulation)` before `float(ground_truth)`. -/
def absolute_difference (ground_truth simulation : PyScalar) :
    Except PyErr (Option ℚ) :=
  match (do
      let s ← pyFloat simulation
      let g ← pyFloat ground_truth
      pure |s - g| : Except PyErr ℚ) with
  | .ok v => .ok (some v)
  | .error .typeError => .ok none
  | .error e => .error e

/-- Embedding of `absolute_percentage_error` (metrics.py lines 126-138):
inside the `try`, a ground truth equal to `0` returns `None`; otherwise
`100*|float(simulation) - float(ground_truth)|/float(ground_truth)` is
returned, with `float(ground_truth)` evaluated again for the denominator;
the handler catches `TypeError` only. -/
def absolute_percentage_error (ground_truth simulation : PyScalar) :
    Except PyErr (Option ℚ) :=
  match (do
      if pyEqZero ground_truth then
        pure none
      else
        let s ← pyFloat simulation
        let g ← pyFloat ground_truth
        let g2 ← pyFloat ground_truth
        pure (some (100 * |s - g| / g2)) : Except PyErr (Option ℚ)) with
  | .ok v => .ok v
  | .error .typeError => .ok none
  | .error e => .error e

/-! ### Shared histogram machinery (metrics.py lines 33-76) -/

/-- Model of a measurement input on the numeric code paths: either a raw
numeric sequence or a data frame carrying one key column and its `value`
column. -/
inductive MInput where
  | arr (xs : List Flt)
  | frame (rows : List (String × Flt))
deriving DecidableEq

/-- Python `len()` of a modelled measurement input. -/
def MInput.len : MInput → ℕ
  | .arr xs => xs.length
  | .frame rows => rows.length

/-- Embedding of `check_data_types` (metrics.py lines 33-54): a data frame
is replaced by its `value` column; the result is a plain numeric array. -/
def check_data_types : MInput → List Flt
  | .arr xs => xs
  | .frame rows => rows.map (·.2)

/-- Modelled from the library: the bin-edge estimators of `np.histogram`
(selected by a method name such as `"auto"` or `"doane"`), abstracted as
a function from the method name and the combined data to the returned
edge list.  Nothing below assumes more than that an estimator is a
function of its arguments, except where an invariance hypothesis is
stated explicitly in a theorem. -/
structure BinEstimator where
  edges : String → List Flt → List ℚ

/-- Embedding of `get_hist_bins` (metrics.py lines 57-76): concatenate the
two data sets and let `np.histogram` compute edges with the requested
method.  The source default for `method` is `"auto"`. -/
def get_hist_bins (E : BinEstimator) (ground_truth simulation : List Flt)
    (method : String) : List ℚ :=
  E.edges method (ground_truth ++ simulation)

/-- Modelled from the library: the counts of `np.histogram(data, bins=edges)`
for an explicit edge list: bin `i` counts the values in `[e_i, e_{i+1})`,
the last bin is closed on the right, and non-finite values fall in no
bin. -/
def histogram (data : List Flt) : List ℚ → List ℕ
  | [e₁, e₂] =>
    [(data.filter fun x => match x with
       | .fin q => decide (e₁ ≤ q) && decide (q ≤ e₂)
       | _ => false).length]
  | e₁ :: e₂ :: e₃ :: rest =>
    (data.filter fun x => match x with
       | .fin q => decide (e₁ ≤ q) && decide (q < e₂)
       | _ => false).length :: histogram data (e₂ :: e₃ :: rest)
  | _ => []

/-- numpy elementwise division of a vector by its own sum, as in
`ground_truth / ground_truth.sum()`. -/
def normalizeFlt (l : List Flt) : List Flt :=
  l.map fun x => x.div (Flt.sum l)

/-- Modelled from the library: `scipy.special.rel_entr`, written against an
abstract logarithm `L` on the rationals (the real logarithm takes
irrational values; each theorem below states exactly the properties of
`L` it needs): `x*log(x/y)` for `x > 0, y > 0`; `0` for `x = 0, y ≥ 0`;
`inf` otherwise; nan propagates, and the non-finite cases follow the same
formula under IEEE arithmetic. -/
def relEntr (L : ℚ → ℚ) : Flt → Flt → Flt
  | .nan, _ => .nan
  | _, .nan => .nan
  | .fin a, .fin b =>
    if 0 < a ∧ 0 < b then .fin (a * L (a / b))
    else if a = 0 ∧ 0 ≤ b then .fin 0
    else .inf
  | .fin a, .inf => if 0 < a then .ninf else if a = 0 then .fin 0 else .inf
  | .fin _, .ninf => .inf
  | .inf, _ => .inf
  | .ninf, _ => .inf

/-- Modelled from the library: `scipy.stats.entropy(pk, qk, base)`: both
vectors are normalised by their sums, `rel_entr` is summed elementwise
and, when a base is given, the sum is divided by `log base`. -/
def entropy (L : ℚ → ℚ) (pk qk : List Flt) (base : Option ℚ) : Flt :=
  let pk := normalizeFlt pk
  let qk := normalizeFlt qk
  let S := Flt.sum (List.zipWith (relEntr L) pk qk)
  match base with
  | none => S
  | some b => S.div (.fin (L b))

/-! ### Jensen-Shannon divergence (metrics.py lines 265-322) -/

/-- Core of `js_divergence` after the null/empty guards and the
non-finite filtering (metrics.py lines 291-322): shared `"doane"` bins,
histograms, per-side normalisation, the mixture
`m = 1/2 * (ground_truth + simulation)` and the mean of the two entropies
against `m`. -/
def jsCore (E : BinEstimator) (L : ℚ → ℚ) (base : ℚ) (g s : List Flt) :
    Option Flt :=
  let bins := get_hist_bins E g s "doane"
  let hg := normalizeFlt ((histogram g bins).map fun n : ℕ => Flt.fin (n : ℚ))
  let hs := normalizeFlt ((histogram s bins).map fun n : ℕ => Flt.fin (n : ℚ))
  if hg.length = hs.length then
    let m := List.zipWith (fun a b => (Flt.fin (1/2)).mul (a.add b)) hg hs
    some (((entropy L hg m (some base)).div (.fin 2)).add
          ((entropy L hs m (some base)).div (.fin 2)))
  else none

/-- Embedding of `js_divergence` (metrics.py lines 265-322) on its numeric
(non-discrete) path with numeric inputs — on which the `np.isfinite`
filtering cannot raise, so the `except TypeError` handler is dead and the
function cannot raise.  The `None`/emptiness guards (line 277) run before
any filtering; then non-finite values are dropped from both sides and the
remainder of the pipeline is `jsCore`.  The source default for `base`
is `2.0`. -/
def js_divergence (E : BinEstimator) (L : ℚ → ℚ)
    (ground_truth simulation : Option MInput) (base : ℚ) : Option Flt :=
  match ground_truth, simulation with
  | some gt, some sim =>
    if sim.len = 0 ∨ gt.len = 0 then none
    else jsCore E L base ((check_data_types gt).filter (Flt.isFinite ·))
                         ((check_data_types sim).filter (Flt.isFinite ·))
  | _, _ => none

/-- A concrete bin estimator returning the fixed edges `[0, 3]` for every
method and data set; used to instantiate oracle-quantified theorems on
concrete inputs. -/
def constBins : BinEstimator := { edges := fun _ _ => [0, 3] }

/-! ### Kullback-Leibler divergence (metrics.py lines 141-221) -/

/-- Embedding of the discrete-branch frame merge (metrics.py lines
168-171, 207-210, 304-307): an outer merge of two single-key frames on
the key with zero fill, producing the left frame's rows first and then
the right-only keys.  Duplicate keys, which pandas expands to a cross
product, are not modelled; no theorem below depends on them. -/
def mergeOuter (gt sim : List (String × Flt)) : List (String × Flt × Flt) :=
  (gt.map fun r =>
    (r.1, r.2, (((sim.find? fun q => q.1 == r.1).map (·.2)).getD (.fin 0)))) ++
  ((sim.filter fun q => gt.all fun r => !(r.1 == q.1)).map
    fun q => (q.1, .fin 0, q.2))

/-- Embedding of `kl_divergence` (metrics.py lines 141-182).  On the
numeric path the shared bins use the `"doane"` method (line 161) and the
raw count vectors go to `entropy`; on the discrete path the frames are
outer-merged with zero fill and each side is normalised by its sum.  Only
`simulation` has a `None` guard (line 153).  A non-frame input on the
discrete path raises in the source; it is mapped to null here and is
unreachable in the theorems below.  The source default for `discrete` is
`False`. -/
def kl_divergence (E : BinEstimator) (L : ℚ → ℚ) (ground_truth : MInput)
    (simulation : Option MInput) (discrete : Bool) : Option Flt :=
  match simulation with
  | none => none
  | some simulation =>
    if !discrete then
      let g := check_data_types ground_truth
      let s := check_data_types simulation
      let bins := get_hist_bins E g s "doane"
      let hg := (histogram g bins).map fun n : ℕ => Flt.fin (n : ℚ)
      let hs := (histogram s bins).map fun n : ℕ => Flt.fin (n : ℚ)
      if hg.length = hs.length then some (entropy L hg hs none) else none
    else
      match ground_truth, simulation with
      | .frame gf, .frame sf =>
        let df := mergeOuter gf sf
        let g := normalizeFlt (df.map fun r => r.2.1)
        let s := normalizeFlt (df.map fun r => r.2.2)
        if g.length = s.length then some (entropy L g s none) else none
      | _, _ => none

/-- Embedding of `kl_divergence_smoothed` (metrics.py lines 185-221).  The
Python local `smoothed_simulation` is assigned only in the numeric branch
(line 203) and is modelled as an `Option` the discrete branch leaves
unassigned; its use at line 218 without a prior assignment raises
`UnboundLocalError`.  On the numeric branch the shared bins are computed
by `get_hist_bins` with its default method `"auto"` (line 199), unlike
`kl_divergence`'s explicit `"doane"`; the blend is
`(1-alpha)*counts + alpha*ones` (line 203).  A non-frame input on the
discrete path raises `AttributeError` at the merge.  The source defaults
are `alpha=0.01`, `discrete=False`. -/
def kl_divergence_smoothed (E : BinEstimator) (L : ℚ → ℚ)
    (ground_truth simulation : MInput) (alpha : ℚ) (discrete : Bool) :
    Except PyErr (Option Flt) :=
  let branch : Except PyErr (List Flt × List Flt × Option (List Flt)) :=
    if !discrete then
      let g := check_data_types ground_truth
      let s := check_data_types simulation
      let bins := get_hist_bins E g s "auto"
      let hg := (histogram g bins).map fun n : ℕ => Flt.fin (n : ℚ)
      let hs := histogram s bins
      .ok (hg, hs.map (fun n : ℕ => Flt.fin (n : ℚ)),
           some (hs.map fun n : ℕ => Flt.fin ((1 - alpha) * (n : ℚ) + alpha)))
    else
      match ground_truth, simulation with
      | .frame gf, .frame sf =>
        let df := mergeOuter gf sf
        .ok (normalizeFlt (df.map fun r => r.2.1),
             normalizeFlt (df.map fun r => r.2.2),
             none)
      | _, _ => .error .attributeError
  match branch with
  | .error e => .error e
  | .ok (g, s, smoothed) =>
    if g.length = s.length then
      match smoothed with
      | none => .error .unboundLocalError
      | some sm => .ok (some (entropy L g sm none))
    else .ok none

/-- Modelled from the spec (claim C3): the smoothed-KL pipeline as the
spec phrases it, with the binning method a parameter: extract the numeric
arrays, compute shared bins, histogram each side, blend the simulation
histogram as `(1-alpha)*simHist + alpha*uniform` (the source's uniform
vector of ones) and take the relative entropy of the count vector against
the blend.  The claim asserts the source equals this pipeline at
`"doane"` — the method continuous `kl_divergence` uses; the amended claim,
at `"auto"`. -/
def kl_smoothed_spec (E : BinEstimator) (L : ℚ → ℚ)
    (ground_truth simulation : MInput) (alpha : ℚ) (method : String) :
    Option Flt :=
  let g := check_data_types ground_truth
  let s := check_data_types simulation
  let bins := get_hist_bins E g s method
  let hg := (histogram g bins).map fun n : ℕ => Flt.fin (n : ℚ)
  let hs := histogram s bins
  let smoothed := hs.map fun n : ℕ => Flt.fin ((1 - alpha) * (n : ℚ) + alpha)
  if hg.length = hs.length then some (entropy L hg smoothed none) else none

/-- A concrete bin estimator on which the `"doane"` and `"auto"` methods
return different edges, as the numpy estimators generally do. -/
def twoMethodBins : BinEstimator :=
  { edges := fun m _ => if m == "doane" then [0, 2] else [0, 1, 2] }

/-! ### R-squared (metrics.py lines 466-502) -/

/-- DBL_MAX, the magnitude `np.nan_to_num` substitutes for infinities. -/
def maxFloat : ℚ := 2 ^ 1024 - 2 ^ 971

/-- Modelled from the library: `np.nan_to_num` on one value (nan to 0,
infinities to the extreme finite doubles). -/
def nanToNum : Flt → ℚ
  | .fin q => q
  | .nan => 0
  | .inf => maxFloat
  | .ninf => -maxFloat

/-- Stable insertion of a keyed row into an ascending key-sorted list:
the row goes after every existing key not greater than its own, matching
the stability of pandas `sort_values`. -/
def insertByKey (r : String × Flt × Flt) :
    List (String × Flt × Flt) → List (String × Flt × Flt)
  | [] => [r]
  | x :: xs => if r.1 < x.1 then r :: x :: xs else x :: insertByKey r xs

/-- Stable sort of keyed rows by ascending key (pandas `sort_values`). -/
def sortByKey (l : List (String × Flt × Flt)) : List (String × Flt × Flt) :=
  l.foldr insertByKey []

/-- Embedding of `join_dfs` (metrics.py lines 79-106) for the inner join
with numeric fill used by `r2`: merge two single-key frames on the key,
keeping the keys present on both sides, and sort the result by key; with
a numeric fill value the `fillna` is a no-op on an inner join.  Duplicate
keys are not modelled, as in `mergeOuter`. -/
def join_dfs_inner (gt sim : List (String × Flt)) : List (String × Flt × Flt) :=
  sortByKey ((gt.filter fun r => sim.any fun q => q.1 == r.1).map
    fun r => (r.1, r.2, (((sim.find? fun q => q.1 == r.1).map (·.2)).getD (.fin 0))))

/-- Modelled from the library: sklearn's `r2_score`,
`1 - sum((y-pred)^2)/sum((y-mean)^2)`, with its zero-variance
conventions: when the denominator vanishes the score is `1` if the
residual also vanishes and `0` otherwise. -/
def r2_score (y_true y_pred : List ℚ) : ℚ :=
  let n : ℚ := y_true.length
  let mean := y_true.sum / n
  let ssRes := (List.zipWith (fun a b => (a - b) ^ 2) y_true y_pred).sum
  let ssTot := (y_true.map fun a => (a - mean) ^ 2).sum
  if ssTot ≠ 0 then 1 - ssRes / ssTot
  else if ssRes ≠ 0 then 0 else 1

/-- Embedding of `r2` (metrics.py lines 466-502).  After the null and
emptiness guards, a list-typed ground truth takes the branch at lines
485-492, which returns `sqrt(mean((gt-sim)**2))` — a root-mean-square
error kept verbatim from `rmse` — rather than a coefficient of
determination (the `np.isfinite` filter there keeps everything because
`nan_to_num` has already run); frame inputs are filtered to finite
values, inner-joined and scored with sklearn's `r2_score` when more than
one aligned row remains.  `np.sqrt` is the abstract parameter `sqrtF`.
Mixed list/frame inputs and mismatched list lengths raise in the source,
are unreachable below, and are mapped to null. -/
def r2 (sqrtF : ℚ → ℚ) (ground_truth simulation : Option MInput) : Option Flt :=
  match ground_truth, simulation with
  | some gt, some sim =>
    if sim.len = 0 ∨ gt.len = 0 then none
    else
      match gt, sim with
      | .arr g, .arr s =>
        let g := g.map nanToNum
        let s := s.map nanToNum
        some (.fin (sqrtF
          ((List.zipWith (fun a b => (a - b) ^ 2) g s).sum / (g.length : ℚ))))
      | .frame gf, .frame sf =>
        let gf := gf.filter fun r => r.2.isFinite
        let sf := sf.filter fun r => r.2.isFinite
        let df := join_dfs_inner gf sf
        if df.length ≤ 1 then none
        else some (.fin (r2_score (df.map fun r => nanToNum r.2.1)
                                  (df.map fun r => nanToNum r.2.2)))
      | _, _ => none
  | _, _ => none

/-! ### Orchestration (run.py)

The measurement collaborators (`socialsim.measurements`), the test-mode
truncation (`socialsim.utils.subset_for_test`) and the metrics engine
(`socialsim.metrics.Metrics`) are repository modules not present under
src/; their behaviour is abstracted as oracle parameters.  Everything in
run.py itself — the control flow, the exception scopes, the name
dispatch, the caching — is translated structurally. -/

/-- The seven measurement collaborator classes named by the dispatch chain
in `run_measurements` (run.py lines 156-169). -/
inductive MClass where
  | socialActivity
  | informationCascades
  | socialStructure
  | crossPlatform
  | multiPlatform
  | recurrence
  | persistentGroups
deriving DecidableEq

/-- The if/elif dispatch at run.py lines 156-169 as a partial name map:
the seven known names resolve to their class and any other name resolves
to nothing (the chain has no else branch). -/
def resolveMeasurement (mt : String) : Option MClass :=
  if mt == "social_activity" then some .socialActivity
  else if mt == "information_cascades" then some .informationCascades
  else if mt == "social_structure" then some .socialStructure
  else if mt == "cross_platform" then some .crossPlatform
  else if mt == "multi_platform" then some .multiPlatform
  else if mt == "recurrence" then some .recurrence
  else if mt == "persistent_groups" then some .persistentGroups
  else none

/-- The effect of one pass through the dispatch chain on the function-level
local `Measurement`: a known name rebinds it, an unknown name leaves the
previous binding in place. -/
def updateClass (M : Option MClass) (mt : String) : Option MClass :=
  match resolveMeasurement mt with
  | some c => some c
  | none => M

/-- The value of the local `Measurement` after a sequence of dispatch
passes, starting from `M0`. -/
def lastResolved (M0 : Option MClass) (ns : List String) : Option MClass :=
  ns.foldl updateClass M0

/-- The log entry stored at one `(platform, measurement_type)` slot of the
output (run.py lines 142-145, 200-203, 214-217, 197). -/
inductive MLogEntry (Lg : Type) where
  | failedToSubset (platform : String)
  | failedToRun
  | failedToInstantiate
  | fromRun (lg : Lg)
deriving DecidableEq

/-- Oracles for the collaborators `run_measurements` drives but whose code
is not under src/: the platform subsetting body (run.py lines 129-136,
including `subset_for_test`), the measurement constructors and the
measurement `run` contract.  The dataset subset passed to a constructor
is `none` when the subsetting failed and the initial empty-list
placeholder (run.py line 122) is still in place. -/
structure MeasurementOracles (δdat δ Obj Res Lg : Type) where
  subset : δdat → String → Except PyErr δ
  inst : MClass → Option δ → Except PyErr Obj
  runM : Obj → Except PyErr (Res × Lg)

/-- Construct-and-run for one resolved measurement class (run.py lines
174-226): a constructor failure logs an instantiation failure, a `run`
failure logs an execution failure, and success stores the run's results
and logs. -/
def mTypeOutcome (O : MeasurementOracles δdat δ Obj Res Lg) (cls : MClass)
    (d : Option δ) : Option Res × MLogEntry Lg :=
  match O.inst cls d with
  | .error _ => (none, .failedToInstantiate)
  | .ok obj =>
    match O.runM obj with
    | .error _ => (none, .failedToRun)
    | .ok (r, lg) => (some r, .fromRun lg)

/-- One iteration of the measurement-type loop (run.py lines 155-229):
the dispatch chain updates the persistent local `Measurement`; if it has
never been bound the construction attempt raises `UnboundLocalError`,
which the handler at line 213 logs as an instantiation failure. -/
def stepMType (O : MeasurementOracles δdat δ Obj Res Lg) (d : Option δ)
    (M : Option MClass) (mt : String) :
    Option MClass × (Option Res × MLogEntry Lg) :=
  let M1 := updateClass M mt
  (M1, match M1 with
       | none => (none, .failedToInstantiate)
       | some cls => mTypeOutcome O cls d)

/-- The measurement-type loop over one platform's configured names,
threading the function-level local `Measurement` and accumulating the
per-measurement-type results and logs in order (run.py lines 155-229). -/
def foldMTypes (O : MeasurementOracles δdat δ Obj Res Lg) (d : Option δ) :
    Option MClass → List String →
    Option MClass × List (String × Option Res) × List (String × MLogEntry Lg)
  | M, [] => (M, [], [])
  | M, mt :: rest =>
    let step := stepMType O d M mt
    let tail := foldMTypes O d step.1 rest
    (tail.1, (mt, step.2.1) :: tail.2.1, (mt, step.2.2) :: tail.2.2)

/-- The platform loop of `run_measurements` (run.py lines 118-233).  When
the subsetting body raises, the handler at lines 141-145 builds a
subsetting-failure dict, but stores it in the local `measurement_logs`,
which every iteration of the measurement-type loop reassigns before the
only read at line 229, and `platform_logs` is written only inside that
loop — so the failure record never reaches the output and the measurement
types are still attempted with the line-122 empty-subset placeholder
(modelled as the `none` dataset).  The local `Measurement` persists
across platforms. -/
def foldPlatforms (O : MeasurementOracles δdat δ Obj Res Lg) (dataset : δdat) :
    Option MClass → List (String × List String) →
    Option MClass × List (String × List (String × Option Res))
      × List (String × List (String × MLogEntry Lg))
  | M, [] => (M, [], [])
  | M, (p, mts) :: rest =>
    let d : Option δ := (O.subset dataset p).toOption
    let plat := foldMTypes O d M mts
    let tail := foldPlatforms O dataset plat.1 rest
    (tail.1, (p, plat.2.1) :: tail.2.1, (p, plat.2.2) :: tail.2.2)

/-- Embedding of `run_measurements` (run.py lines 103-235): the nested
platform and measurement-type loops, returning the results and logs
keyed by platform and then measurement type. -/
def run_measurements (O : MeasurementOracles δdat δ Obj Res Lg)
    (dataset : δdat) (configuration : List (String × List String)) :
    List (String × List (String × Option Res))
      × List (String × List (String × MLogEntry Lg)) :=
  let folded := foldPlatforms O dataset none configuration
  (folded.2.1, folded.2.2)

/-- All configured measurement-type names in iteration order. -/
def configNames (cfg : List (String × List String)) : List String :=
  cfg.foldr (fun pr acc => pr.2 ++ acc) []

/-- Concrete oracles whose subsetting always raises while construction and
`run` succeed; the run returns results `1` with logs `7`. -/
def subsetFailOracles : MeasurementOracles Unit Unit Unit ℕ ℕ :=
  { subset := fun _ _ => .error .generic
    inst := fun _ _ => .ok ()
    runM := fun _ => .ok (1, 7) }

/-- Concrete oracles on which every phase succeeds; the run returns
results `1` with logs `7`. -/
def okOracles : MeasurementOracles Unit Unit Unit ℕ ℕ :=
  { subset := fun _ _ => .ok ()
    inst := fun _ _ => .ok ()
    runM := fun _ => .ok (1, 7) }

/-- Nested measurement-result collection keyed by platform then
measurement type. -/
abbrev MResults (Res : Type) := List (String × List (String × Option Res))

/-- Nested execution-log collection keyed by platform then measurement
type. -/
abbrev MLogs (Lg : Type) := List (String × List (String × MLogEntry Lg))

/-- Embedding of the `TaskRunner` object state (run.py lines 29-59): the
construction-time fields.  `metadata`, `test` and `plot_dir` are opaque
pass-through configuration and are not modelled.  The `ground_truth is
str` test at line 51 compares against the `str` type object and is false
for every actual dataset, so construction always runs `run_measurements`
on the ground truth. -/
structure TaskRunner (δdat Res Lg : Type) where
  ground_truth : δdat
  configuration : List (String × List String)
  ground_truth_results : MResults Res
  ground_truth_logs : MLogs Lg

/-- The three-part result bundle a `TaskRunner` call returns (run.py lines
85-89). -/
structure TaskResults (Res Met : Type) where
  simulation_results : MResults Res
  ground_truth_results : MResults Res
  metrics : Met
deriving DecidableEq

/-- The three-part log bundle a `TaskRunner` call returns (run.py lines
91-95). -/
structure TaskLogs (Lg MetLg : Type) where
  simulation_logs : MLogs Lg
  ground_truth_logs : MLogs Lg
  metrics_logs : MetLg
deriving DecidableEq

/-- Embedding of `TaskRunner.__init__` (run.py lines 30-59): the ground
truth measurement collection is computed here, once, and stored on the
object. -/
def TaskRunner.init (O : MeasurementOracles δdat δ Obj Res Lg)
    (ground_truth : δdat) (configuration : List (String × List String)) :
    TaskRunner δdat Res Lg :=
  let temp := run_measurements O ground_truth configuration
  { ground_truth := ground_truth
    configuration := configuration
    ground_truth_results := temp.1
    ground_truth_logs := temp.2 }

/-- Embedding of `TaskRunner.__call__` (run.py lines 62-97): run the
measurements on the new simulation dataset, read the cached ground-truth
results off the object, hand both to the metrics engine (the oracle
`runMetricsFn`, for `run_metrics`, whose `Metrics` class is not under
src/) and return the result and log bundles.  The method assigns no
attribute, so the object is returned unchanged. -/
def TaskRunner.call (O : MeasurementOracles δdat δ Obj Res Lg)
    (runMetricsFn : MResults Res → MResults Res →
      List (String × List String) → Met × MetLg)
    (self : TaskRunner δdat Res Lg) (dataset : δdat) :
    (TaskResults Res Met × TaskLogs Lg MetLg) × TaskRunner δdat Res Lg :=
  let configuration := self.configuration
  let sim := run_measurements O dataset configuration
  let ground_truth_results := self.ground_truth_results
  let ground_truth_logs := self.ground_truth_logs
  let met := runMetricsFn sim.1 ground_truth_results configuration
  (({ simulation_results := sim.1
      ground_truth_results := ground_truth_results
      metrics := met.1 },
    { simulation_logs := sim.2
      ground_truth_logs := ground_truth_logs
      metrics_logs := met.2 }), self)

/-- A sequence of `TaskRunner` invocations on successive simulation
datasets, collecting each call's output bundle. -/
def TaskRunner.callSeq (O : MeasurementOracles δdat δ Obj Res Lg)
    (runMetricsFn : MResults Res → MResults Res →
      List (String × List String) → Met × MetLg) :
    TaskRunner δdat Res Lg → List δdat →
    List (TaskResults Res Met × TaskLogs Lg MetLg) × TaskRunner δdat Res Lg
  | self, [] => ([], self)
  | self, d :: ds =>
    let one := TaskRunner.call O runMetricsFn self d
    let rest := TaskRunner.callSeq O runMetricsFn one.2 ds
    (one.1 :: rest.1, rest.2)

/-! ## Theorems -/

/-! ### Basic lemmas about the float model and the histogram pipeline -/

theorem Flt.add_comm (a b : Flt) : Flt.add a b = Flt.add b a := by
  cases a <;> cases b <;> simp [Flt.add] <;> ring

theorem Flt.half_mul_add_self (a : Flt) :
    Flt.mul (Flt.fin (1/2)) (Flt.add a a) = a := by
  cases a <;> simp [Flt.add, Flt.mul] <;> norm_num <;> ring

theorem Flt.sum_map_fin (f : α → ℚ) (l : List α) :
    Flt.sum (l.map fun x => Flt.fin (f x)) = Flt.fin (l.map f).sum := by
  induction l with
  | nil => rfl
  | cons x xs ih =>
    simp only [List.map_cons, List.sum_cons]
    show Flt.add (Flt.fin (f x)) (Flt.sum (xs.map fun x => Flt.fin (f x))) = _
    rw [ih]
    simp [Flt.add]

theorem histogram_length (data : List Flt) :
    ∀ edges : List ℚ, (histogram data edges).length = edges.length - 1
  | [] => rfl
  | [_] => rfl
  | [_, _] => rfl
  | e₁ :: e₂ :: e₃ :: rest => by
    simp only [histogram, List.length_cons,
      histogram_length data (e₂ :: e₃ :: rest)]
    omega

/-! ### C1: RBO of a list with itself -/

/-- Helper: the truncated geometric sum satisfies
`(sum of p^i for i < s) * (1-p) = 1 - p^s`. -/
theorem geom_list_sum (p : ℚ) (s : ℕ) :
    (((List.range s).map fun i => p ^ i).sum) * (1 - p) = 1 - p ^ s := by
  induction s with
  | zero => simp
  | succ n ih =>
    rw [List.range_succ, List.map_append, List.sum_append]
    simp only [List.map_cons, List.map_nil, List.sum_cons, List.sum_nil]
    linear_combination ih

/-- C1 counterexample: for the one-element ranked list `[0]` and
`p = 1/2 ∈ (0,1)`, `rbo_score` returns `1/2`, not `1`. -/
theorem rbo_score_self_ne_one :
    ((0:ℚ) < 1/2 ∧ (1/2:ℚ) < 1) ∧ ([0] : List ℕ) ≠ [] ∧
      rbo_score [0] (some [0]) (1/2) = some (1/2) ∧ (1/2 : ℚ) ≠ 1 := by
  refine ⟨by norm_num, by simp, ?_, by norm_num⟩
  norm_num [rbo_score, List.range_succ]

/-- C1 (amended): for a nonempty duplicate-free ranked list `X` and
`p ∈ (0,1)`, `rbo_score X X p` equals the truncated RBO value
`1 - p ^ |X|` (it reaches `1` only in the infinite-depth limit). -/
theorem rbo_score_self [DecidableEq α] (X : List α) (p : ℚ)
    (hX : X ≠ []) (hnd : X.Nodup) (hp : 0 < p ∧ p < 1) :
    rbo_score X (some X) p = some (1 - p ^ X.length) := by
  have hlen : X.length ≤ X.length := le_refl _
  have hs : X.length ≠ 0 := fun h => hX (List.eq_nil_of_length_eq_zero h)
  simp only [rbo_score, hlen, if_true, hs, if_false]
  have hterm : ∀ i0 ∈ List.range X.length,
      ((((X.take (i0+1)).toFinset ∩ (X.take (i0+1)).toFinset).card : ℚ) / (i0+1))
        * p ^ i0 = p ^ i0 := by
    intro i0 hi0
    have hi : i0 < X.length := List.mem_range.mp hi0
    have hnd' : (X.take (i0+1)).Nodup := hnd.sublist (List.take_sublist _ _)
    have hlen' : (X.take (i0+1)).length = i0 + 1 :=
      List.length_take_of_le (by omega)
    rw [Finset.inter_self, List.toFinset_card_of_nodup hnd', hlen']
    have hne : ((i0:ℚ) + 1) ≠ 0 := by positivity
    push_cast
    rw [div_self hne, one_mul]
  rw [List.map_congr_left hterm, geom_list_sum]

/-- Witness for C1's amended theorem at `X = [0,1]`, `p = 1/2`. -/
theorem rbo_score_self_witness :
    (([0,1] : List ℕ) ≠ [] ∧ ([0,1] : List ℕ).Nodup ∧
        ((0:ℚ) < 1/2 ∧ (1/2:ℚ) < 1)) ∧
      rbo_score [0,1] (some [0,1]) (1/2) = some (1 - (1/2) ^ 2) := by
  refine ⟨⟨by simp, by decide, by norm_num⟩, ?_⟩
  have h := rbo_score_self ([0,1] : List ℕ) (1/2) (by simp) (by decide)
    (by norm_num)
  simpa using h

/-! ### C5: scalar metrics on non-numeric input -/

/-- C5: `absolute_percentage_error(0, x)` does return null for every `x`,
and a `None` input returns null via the `TypeError` handler, but
`absolute_difference("x", 3)` raises `ValueError` (Python's `float("x")`
raises `ValueError`, which the `except TypeError` handler does not
catch), contradicting the claim that non-numeric input never raises. -/
theorem absolute_difference_str_raises :
    absolute_difference (.str "x") (.num 3) = .error .valueError ∧
      (∀ sim, absolute_percentage_error (.num 0) sim = .ok none) ∧
      absolute_difference .null (.num 3) = .ok none := by
  refine ⟨rfl, ?_, rfl⟩
  intro sim
  rfl

/-! ### C10: the discrete branch of the smoothed KL divergence -/

/-- C10: with `discrete=True`, `kl_divergence_smoothed` always raises
`UnboundLocalError` on the category-count frames the discrete mode is
meant for: the merge, fill and normalisation succeed, both columns of the
merged frame have equal length, and then line 218 reads
`smoothed_simulation`, which only the numeric branch assigns. -/
theorem kl_divergence_smoothed_discrete_raises (E : BinEstimator)
    (L : ℚ → ℚ) (alpha : ℚ) (gf sf : List (String × Flt)) :
    kl_divergence_smoothed E L (.frame gf) (.frame sf) alpha true =
      .error .unboundLocalError := by
  simp [kl_divergence_smoothed, normalizeFlt]

/-! ### C3: binning method of the smoothed KL divergence -/

/-- C3 counterexample: on an estimator whose `"doane"` and `"auto"`
methods give different edges (as numpy's do), the smoothed KL divergence
differs from the spec's doane-binned pipeline: the code bins with the
default `"auto"` method. -/
theorem kl_divergence_smoothed_ne_doane_spec :
    kl_divergence_smoothed twoMethodBins (fun q => q)
        (.arr [.fin 0, .fin 1]) (.arr [.fin 0, .fin 0]) (1/100) false ≠
      .ok (kl_smoothed_spec twoMethodBins (fun q => q)
        (.arr [.fin 0, .fin 1]) (.arr [.fin 0, .fin 0]) (1/100) "doane") := by
  norm_num [kl_divergence_smoothed, kl_smoothed_spec, twoMethodBins,
    get_hist_bins, check_data_types, histogram, entropy, normalizeFlt,
    Flt.sum, Flt.add, Flt.div, Flt.mul, relEntr, List.filter]

/-- C3 (amended): for every estimator, logarithm, smoothing parameter and
pair of numeric inputs, `kl_divergence_smoothed` equals the spec's
blended pipeline computed with the default `"auto"` binning method — not
the `"doane"` method that continuous `kl_divergence` uses. -/
theorem kl_divergence_smoothed_is_auto_spec (E : BinEstimator) (L : ℚ → ℚ)
    (ground_truth simulation : MInput) (alpha : ℚ) :
    kl_divergence_smoothed E L ground_truth simulation alpha false =
      .ok (kl_smoothed_spec E L ground_truth simulation alpha "auto") := by
  simp only [kl_divergence_smoothed, kl_smoothed_spec, Bool.not_false,
    if_true, List.length_map]
  split
  · rfl
  · rfl

/-! ### C4: R-squared of identical inputs -/

/-- C4: with identical two-row frame inputs `r2` does return `1`, but with
the identical raw list `[1, 2]` it returns `sqrt(0) = 0`, not `≈ 1`: the
list branch of `r2` computes a root-mean-square error (copied from
`rmse`), contradicting the function's own name and docstring. -/
theorem r2_identical_inputs (sqrtF : ℚ → ℚ) (h : sqrtF 0 = 0) :
    r2 sqrtF (some (.arr [.fin 1, .fin 2])) (some (.arr [.fin 1, .fin 2])) =
        some (.fin 0) ∧
      r2 sqrtF (some (.frame [("a", .fin 1), ("b", .fin 2)]))
          (some (.frame [("a", .fin 1), ("b", .fin 2)])) = some (.fin 1) := by
  constructor
  · have : ((1:ℚ) - 1) ^ 2 + (((2:ℚ) - 2) ^ 2 + 0) = 0 := by norm_num
    simp [r2, MInput.len, nanToNum, this]
    norm_num [h]
  · have hord : (['a'] : List Char) < ['b'] := by decide
    have hbb : (("b" : String) == "b") = true := by decide
    have hab : (("a" : String) == "b") = false := by decide
    norm_num [r2, MInput.len, nanToNum, join_dfs_inner, sortByKey,
      insertByKey, r2_score, Flt.isFinite, List.filter, hord, List.find?,
      hbb, hab]

/-- Witness for C4's theorem at the identity square root stand-in. -/
theorem r2_identical_inputs_witness :
    ((fun q : ℚ => q) 0 = 0) ∧
      (r2 (fun q : ℚ => q) (some (.arr [.fin 1, .fin 2]))
          (some (.arr [.fin 1, .fin 2])) = some (.fin 0) ∧
        r2 (fun q : ℚ => q) (some (.frame [("a", .fin 1), ("b", .fin 2)]))
          (some (.frame [("a", .fin 1), ("b", .fin 2)])) = some (.fin 1)) :=
  ⟨rfl, r2_identical_inputs (fun q : ℚ => q) rfl⟩

/-! ### Lemmas about normalisation and entropy -/

theorem sum_fin_zero (l : List Flt) (h : ∀ x ∈ l, x = Flt.fin 0) :
    Flt.sum l = Flt.fin 0 := by
  induction l with
  | nil => rfl
  | cons x xs ih =>
    have hx := h x (List.mem_cons_self x xs)
    show Flt.add x (Flt.sum xs) = _
    rw [hx, ih fun y hy => h y (List.mem_cons_of_mem x hy)]
    simp [Flt.add]

theorem sum_map_div_rat (cs : List ℚ) (T : ℚ) :
    (cs.map fun q => q / T).sum = cs.sum / T := by
  induction cs with
  | nil => simp
  | cons c cs ih => simp [ih, add_div]

/-- scipy's entropy of a vector of nonnegative finite values with positive
sum against itself is exactly zero, for any logarithm with `log 1 = 0`
and a base whose logarithm is nonzero. -/
theorem entropy_self (L : ℚ → ℚ) (b : ℚ) (hL1 : L 1 = 0) (hLb : L b ≠ 0)
    (l : List Flt) (hfin : ∀ x ∈ l, ∃ q, 0 ≤ q ∧ x = Flt.fin q)
    (t : ℚ) (hsum : Flt.sum l = Flt.fin t) (ht : 0 < t) :
    entropy L l l (some b) = Flt.fin 0 := by
  have ht' : t ≠ 0 := ne_of_gt ht
  have key : ∀ y ∈ (l.map fun x => x.div (Flt.sum l)).map
      (fun x => relEntr L x x), y = Flt.fin 0 := by
    intro y hy
    obtain ⟨x, hx, rfl⟩ := List.mem_map.mp hy
    obtain ⟨x0, hx0, rfl⟩ := List.mem_map.mp hx
    obtain ⟨q, hq0, rfl⟩ := hfin x0 hx0
    rw [hsum]
    have hdiv : (Flt.fin q).div (Flt.fin t) = Flt.fin (q / t) := by
      simp [Flt.div, ht']
    rw [hdiv]
    rcases eq_or_lt_of_le hq0 with hq | hq
    · rw [← hq]
      norm_num [relEntr]
    · have hpos : 0 < q / t := div_pos hq ht
      simp only [relEntr, if_pos (And.intro hpos hpos)]
      rw [div_self (ne_of_gt hpos), hL1, mul_zero]
  have S0 : Flt.sum ((l.map fun x => x.div (Flt.sum l)).map
      fun x => relEntr L x x) = Flt.fin 0 := sum_fin_zero _ key
  simp only [entropy, normalizeFlt, List.zipWith_same]
  rw [S0]
  simp [Flt.div, hLb]

/-- `jsCore` always yields a value: the two normalised histograms share
the bin-edge list, so the length guard always passes. -/
theorem jsCore_ne_none (E : BinEstimator) (L : ℚ → ℚ) (b : ℚ)
    (g s : List Flt) : jsCore E L b g s ≠ none := by
  simp [jsCore, normalizeFlt, histogram_length]

/-- `jsCore` is symmetric in its two data arguments whenever the bin
estimator is invariant under swapping the two concatenated halves of its
input (numpy's estimators are: they depend only on order-invariant
statistics of the combined sample). -/
theorem jsCore_symm (E : BinEstimator) (L : ℚ → ℚ) (b : ℚ)
    (hE : ∀ a c : List Flt, E.edges "doane" (a ++ c) = E.edges "doane" (c ++ a))
    (g s : List Flt) : jsCore E L b g s = jsCore E L b s g := by
  have hcomm : ∀ x y : Flt,
      (Flt.fin (1/2)).mul (x.add y) = (Flt.fin (1/2)).mul (y.add x) := by
    intro x y
    rw [Flt.add_comm]
  simp only [jsCore, get_hist_bins, hE g s]
  set hg := normalizeFlt ((histogram g (E.edges "doane" (s ++ g))).map
    fun n : ℕ => Flt.fin (n : ℚ)) with hgdef
  set hs := normalizeFlt ((histogram s (E.edges "doane" (s ++ g))).map
    fun n : ℕ => Flt.fin (n : ℚ)) with hsdef
  by_cases hlen : hg.length = hs.length
  · rw [if_pos hlen, if_pos hlen.symm,
      List.zipWith_comm_of_comm _ hcomm hs hg, Flt.add_comm]
  · rw [if_neg hlen, if_neg fun hc => hlen hc.symm]

/-- Normalising a vector of histogram counts divides each count by the
total. -/
theorem normalize_counts (cs : List ℕ) (h : 0 < cs.sum) :
    normalizeFlt (cs.map fun n : ℕ => Flt.fin (n:ℚ))
      = cs.map fun n : ℕ => Flt.fin ((n:ℚ) / (cs.sum : ℚ)) := by
  have hTpos : (0:ℚ) < (cs.sum : ℚ) := by exact_mod_cast h
  have hTne : ((cs.sum : ℚ)) ≠ 0 := ne_of_gt hTpos
  unfold normalizeFlt
  rw [Flt.sum_map_fin, ← Nat.cast_list_sum, List.map_map]
  apply List.map_congr_left
  intro n _
  show (Flt.fin (n:ℚ)).div (Flt.fin (cs.sum : ℚ)) = _
  simp only [Flt.div]
  rw [if_neg hTne]

/-- A normalised count vector with positive total sums to one. -/
theorem sum_normalize_counts (cs : List ℕ) (h : 0 < cs.sum) :
    Flt.sum (cs.map fun n : ℕ => Flt.fin ((n:ℚ) / (cs.sum : ℚ)))
      = Flt.fin 1 := by
  have hTpos : (0:ℚ) < (cs.sum : ℚ) := by exact_mod_cast h
  have hTne : ((cs.sum : ℚ)) ≠ 0 := ne_of_gt hTpos
  rw [Flt.sum_map_fin]
  congr 1
  have hcomp : (cs.map fun n : ℕ => ((n:ℚ) / (cs.sum : ℚ)))
      = (cs.map fun n : ℕ => (n:ℚ)).map fun q => q / (cs.sum : ℚ) := by
    rw [List.map_map]
    rfl
  rw [hcomp, sum_map_div_rat, ← Nat.cast_list_sum, div_self hTne]

/-- `jsCore` of a data set against itself is exactly zero when its
histogram on the shared bins is populated. -/
theorem jsCore_self (E : BinEstimator) (L : ℚ → ℚ)
    (hL1 : L 1 = 0) (hL2 : L 2 ≠ 0) (g : List Flt)
    (hpos : 0 < (histogram g (get_hist_bins E g g "doane")).sum) :
    jsCore E L 2 g g = some (Flt.fin 0) := by
  simp only [jsCore]
  set counts := histogram g (get_hist_bins E g g "doane") with hcounts
  have hTpos : (0:ℚ) < (counts.sum : ℚ) := by exact_mod_cast hpos
  have hgeq := normalize_counts counts hpos
  have hfin : ∀ x ∈ normalizeFlt (counts.map fun n : ℕ => Flt.fin (n:ℚ)),
      ∃ q, 0 ≤ q ∧ x = Flt.fin q := by
    rw [hgeq]
    intro x hx
    obtain ⟨n, _, rfl⟩ := List.mem_map.mp hx
    exact ⟨(n:ℚ) / (counts.sum : ℚ),
      div_nonneg (Nat.cast_nonneg n) (le_of_lt hTpos), rfl⟩
  have hsum1 : Flt.sum (normalizeFlt (counts.map fun n : ℕ => Flt.fin (n:ℚ)))
      = Flt.fin 1 := by
    rw [hgeq]
    exact sum_normalize_counts counts hpos
  simp only [if_true, List.zipWith_same]
  have hm : (normalizeFlt (counts.map fun n : ℕ => Flt.fin (n:ℚ))).map
      (fun a => (Flt.fin (1/2)).mul (a.add a))
      = normalizeFlt (counts.map fun n : ℕ => Flt.fin (n:ℚ)) :=
    (List.map_congr_left fun a _ => Flt.half_mul_add_self a).trans
      (List.map_id' _)
  rw [hm, entropy_self L 2 hL1 hL2 _ hfin 1 hsum1 one_pos]
  simp [Flt.div, Flt.add]

/-! ### C6: null policy of the JS divergence -/

/-- C6 counterexample: with the all-non-finite (and nonempty, so it
passes the guards) simulation input `[nan]`, `js_divergence` does not
return null: the simulation side becomes empty only after the guards have
run, its histogram is all zeros, the normalisation divides 0 by 0, and
the returned value is NaN. -/
theorem js_divergence_nonfinite_not_null :
    js_divergence constBins (fun _ => 1)
        (some (.arr [.fin 1, .fin 2])) (some (.arr [.nan])) 2 = some Flt.nan ∧
      some Flt.nan ≠ (none : Option Flt) := by
  constructor
  · norm_num [js_divergence, jsCore, MInput.len, check_data_types, constBins,
      get_hist_bins, histogram, normalizeFlt, Flt.sum, Flt.add, Flt.div,
      Flt.mul, Flt.isFinite, entropy, relEntr, List.filter]
  · simp

/-- C6 (amended): `js_divergence`'s null and emptiness guards run before
the non-finite filtering: a null or pre-filter-empty input yields null,
and an input that is nonempty before filtering never yields null — in
particular an all-non-finite input produces a NaN value, not null. -/
theorem js_divergence_null_guards :
    (∀ (E : BinEstimator) (L : ℚ → ℚ) (sim : Option MInput) (b : ℚ),
      js_divergence E L none sim b = none) ∧
    (∀ (E : BinEstimator) (L : ℚ → ℚ) (gt : Option MInput) (b : ℚ),
      js_divergence E L gt none b = none) ∧
    (∀ (E : BinEstimator) (L : ℚ → ℚ) (gt sim : MInput) (b : ℚ),
      gt.len = 0 ∨ sim.len = 0 →
      js_divergence E L (some gt) (some sim) b = none) ∧
    (∀ (E : BinEstimator) (L : ℚ → ℚ) (gt sim : MInput) (b : ℚ),
      gt.len ≠ 0 → sim.len ≠ 0 →
      js_divergence E L (some gt) (some sim) b ≠ none) := by
  refine ⟨fun E L sim b => rfl, fun E L gt b => ?_, fun E L gt sim b h => ?_,
    fun E L gt sim b h1 h2 => ?_⟩
  · cases gt <;> rfl
  · have : sim.len = 0 ∨ gt.len = 0 := h.symm
    simp [js_divergence, this]
  · have hcond : ¬(sim.len = 0 ∨ gt.len = 0) := by
      intro hc
      rcases hc with hc | hc
      · exact h2 hc
      · exact h1 hc
    simp only [js_divergence, if_neg hcond]
    exact jsCore_ne_none E L b _ _

/-- Witness for C6's amended theorem: a nonempty all-NaN simulation input
passes the guards and yields a non-null result. -/
theorem js_divergence_null_guards_witness :
    ((MInput.arr [Flt.fin 1]).len ≠ 0 ∧ (MInput.arr [Flt.nan]).len ≠ 0) ∧
      js_divergence constBins (fun _ => 1) (some (.arr [.fin 1]))
        (some (.arr [.nan])) 2 ≠ none :=
  ⟨⟨by simp [MInput.len], by simp [MInput.len]⟩,
    js_divergence_null_guards.2.2.2 constBins (fun _ => 1) _ _ 2
      (by simp [MInput.len]) (by simp [MInput.len])⟩

/-! ### C7: symmetry and self-identity of the JS divergence -/

/-- C7: for every bin estimator invariant under swapping the concatenated
halves of its input (numpy's estimators are) and every logarithm with
`log 1 = 0` and `log 2 ≠ 0` (the real logarithm satisfies both),
`js_divergence` at the default base 2 is symmetric in its two inputs, and
a valid input — nonempty, with a populated histogram on its own shared
bins — compared against itself gives exactly zero. -/
theorem js_divergence_symm_and_self (E : BinEstimator) (L : ℚ → ℚ)
    (hE : ∀ a c : List Flt, E.edges "doane" (a ++ c) = E.edges "doane" (c ++ a))
    (hL1 : L 1 = 0) (hL2 : L 2 ≠ 0) :
    (∀ gt sim : Option MInput,
      js_divergence E L gt sim 2 = js_divergence E L sim gt 2) ∧
    (∀ X : MInput, X.len ≠ 0 →
      0 < (histogram ((check_data_types X).filter (Flt.isFinite ·))
            (get_hist_bins E ((check_data_types X).filter (Flt.isFinite ·))
              ((check_data_types X).filter (Flt.isFinite ·)) "doane")).sum →
      js_divergence E L (some X) (some X) 2 = some (Flt.fin 0)) := by
  constructor
  · intro gt sim
    cases gt with
    | none =>
      cases sim with
      | none => rfl
      | some s => rfl
    | some g =>
      cases sim with
      | none => rfl
      | some s =>
        simp only [js_divergence]
        by_cases h : s.len = 0 ∨ g.len = 0
        · rw [if_pos h, if_pos h.symm]
        · rw [if_neg h, if_neg fun hc => h hc.symm]
          exact jsCore_symm E L 2 hE _ _
  · intro X hXlen hpos
    have hcond : ¬(X.len = 0 ∨ X.len = 0) := by
      intro hc
      rcases hc with hc | hc <;> exact hXlen hc
    simp only [js_divergence, if_neg hcond]
    exact jsCore_self E L hL1 hL2 _ hpos

/-- Witness for C7 at a constant estimator and a concrete logarithm. -/
theorem js_divergence_symm_and_self_witness :
    ((fun q : ℚ => if q = 1 then 0 else 1) 1 = 0) ∧
      ((fun q : ℚ => if q = 1 then 0 else 1) 2 ≠ 0) ∧
      js_divergence constBins (fun q : ℚ => if q = 1 then 0 else 1)
          (some (.arr [.fin 1])) (some (.arr [.fin 2])) 2 =
        js_divergence constBins (fun q : ℚ => if q = 1 then 0 else 1)
          (some (.arr [.fin 2])) (some (.arr [.fin 1])) 2 ∧
      js_divergence constBins (fun q : ℚ => if q = 1 then 0 else 1)
          (some (.arr [.fin 1, .fin 2])) (some (.arr [.fin 1, .fin 2])) 2 =
        some (Flt.fin 0) := by
  have h := js_divergence_symm_and_self constBins
    (fun q : ℚ => if q = 1 then 0 else 1) (fun a c => rfl)
    (by norm_num) (by norm_num)
  exact ⟨by norm_num, by norm_num, h.1 _ _,
    h.2 _ (by simp [MInput.len])
      (by norm_num [histogram, get_hist_bins, constBins, check_data_types,
        Flt.isFinite, List.filter])⟩

/-! ### C2: a lost subsetting failure -/

/-- C2: when the subsetting of a platform raises, the failure record never
reaches the returned logs and the measurement types are still attempted:
on a one-platform, one-measurement-type configuration whose subsetting
always fails while construction and run succeed, the output carries the
run's own results and logs and no subsetting-failure entry anywhere —
against the claim that a platform-level subsetting log entry appears and
the platform's measurement types are skipped. -/
theorem run_measurements_subset_failure_lost :
    run_measurements subsetFailOracles () [("twitter", ["social_activity"])] =
      ([("twitter", [("social_activity", some 1)])],
       [("twitter", [("social_activity", MLogEntry.fromRun 7)])]) := by
  rfl

/-! ### C8: the cached ground-truth collection -/

theorem callSeq_state_fixed
    (O : MeasurementOracles δdat δ Obj Res Lg)
    (RM : MResults Res → MResults Res → List (String × List String) →
      Met × MetLg)
    (self : TaskRunner δdat Res Lg) (ds : List δdat) :
    (TaskRunner.callSeq O RM self ds).2 = self ∧
    ∀ o ∈ (TaskRunner.callSeq O RM self ds).1,
      o.1.ground_truth_results = self.ground_truth_results ∧
      o.2.ground_truth_logs = self.ground_truth_logs := by
  induction ds with
  | nil => exact ⟨rfl, by simp [TaskRunner.callSeq]⟩
  | cons d ds ih =>
    simp only [TaskRunner.callSeq, TaskRunner.call]
    refine ⟨ih.1, ?_⟩
    intro o ho
    rcases List.mem_cons.mp ho with h | h
    · subst h
      exact ⟨rfl, rfl⟩
    · exact ih.2 o h

/-- C8: `TaskRunner.init` computes the ground-truth collection once, by
one `run_measurements` call on the ground-truth dataset, and over any
sequence of subsequent invocations the runner state is unchanged and
every returned bundle carries exactly that cached collection. -/
theorem taskRunner_ground_truth_cached
    (O : MeasurementOracles δdat δ Obj Res Lg)
    (RM : MResults Res → MResults Res → List (String × List String) →
      Met × MetLg)
    (gt : δdat) (cfg : List (String × List String)) (ds : List δdat) :
    (TaskRunner.init O gt cfg).ground_truth_results =
        (run_measurements O gt cfg).1 ∧
      (TaskRunner.callSeq O RM (TaskRunner.init O gt cfg) ds).2 =
        TaskRunner.init O gt cfg ∧
      ∀ o ∈ (TaskRunner.callSeq O RM (TaskRunner.init O gt cfg) ds).1,
        o.1.ground_truth_results = (run_measurements O gt cfg).1 ∧
        o.2.ground_truth_logs = (run_measurements O gt cfg).2 := by
  refine ⟨rfl, (callSeq_state_fixed O RM _ ds).1, ?_⟩
  intro o ho
  exact (callSeq_state_fixed O RM _ ds).2 o ho

/-! ### C9: dispatch of unknown measurement-type names -/

theorem stepMType_state (O : MeasurementOracles δdat δ Obj Res Lg)
    (d : Option δ) (M : Option MClass) (mt : String) :
    (stepMType O d M mt).1 = updateClass M mt := rfl

theorem foldMTypes_state (O : MeasurementOracles δdat δ Obj Res Lg)
    (d : Option δ) (M : Option MClass) (mts : List String) :
    (foldMTypes O d M mts).1 = lastResolved M mts := by
  induction mts generalizing M with
  | nil => rfl
  | cons mt rest ih =>
    simp only [foldMTypes, lastResolved, List.foldl_cons]
    exact ih _

theorem foldMTypes_logs_append (O : MeasurementOracles δdat δ Obj Res Lg)
    (d : Option δ) (M : Option MClass) (xs ys : List String) :
    (foldMTypes O d M (xs ++ ys)).2.2 =
      (foldMTypes O d M xs).2.2 ++
        (foldMTypes O d (lastResolved M xs) ys).2.2 := by
  induction xs generalizing M with
  | nil => rfl
  | cons x xs ih =>
    simp only [List.cons_append, List.append_eq, foldMTypes, lastResolved,
      List.foldl_cons]
    rw [ih]
    rfl

theorem foldMTypes_logs_length (O : MeasurementOracles δdat δ Obj Res Lg)
    (d : Option δ) (M : Option MClass) (mts : List String) :
    (foldMTypes O d M mts).2.2.length = mts.length := by
  induction mts generalizing M with
  | nil => rfl
  | cons mt rest ih =>
    simp only [foldMTypes, List.length_cons, ih]

theorem foldPlatforms_state (O : MeasurementOracles δdat δ Obj Res Lg)
    (dataset : δdat) (M : Option MClass)
    (cfg : List (String × List String)) :
    (foldPlatforms O dataset M cfg).1 = lastResolved M (configNames cfg) := by
  induction cfg generalizing M with
  | nil => rfl
  | cons pr rest ih =>
    obtain ⟨p, mts⟩ := pr
    simp only [foldPlatforms, configNames, List.foldr_cons]
    rw [ih _, foldMTypes_state]
    show lastResolved (lastResolved M mts) (configNames rest) = _
    simp only [lastResolved, configNames, ← List.foldl_append]

theorem foldPlatforms_logs_append (O : MeasurementOracles δdat δ Obj Res Lg)
    (dataset : δdat) (M : Option MClass)
    (front rest : List (String × List String)) :
    (foldPlatforms O dataset M (front ++ rest)).2.2 =
      (foldPlatforms O dataset M front).2.2 ++
        (foldPlatforms O dataset (lastResolved M (configNames front))
          rest).2.2 := by
  induction front generalizing M with
  | nil => rfl
  | cons pr fr ih =>
    obtain ⟨p, mts⟩ := pr
    simp only [List.cons_append, List.append_eq, foldPlatforms]
    rw [ih, foldMTypes_state]
    have hfold : lastResolved M (configNames ((p, mts) :: fr)) =
        lastResolved (lastResolved M mts) (configNames fr) := by
      show lastResolved M (mts ++ configNames fr) = _
      simp only [lastResolved, List.foldl_append]
    rw [hfold]

theorem foldPlatforms_logs_length (O : MeasurementOracles δdat δ Obj Res Lg)
    (dataset : δdat) (M : Option MClass) (cfg : List (String × List String)) :
    (foldPlatforms O dataset M cfg).2.2.length = cfg.length := by
  induction cfg generalizing M with
  | nil => rfl
  | cons pr rest ih =>
    obtain ⟨p, mts⟩ := pr
    simp only [foldPlatforms, List.length_cons, ih]

/-- C9: an unknown measurement-type name is never logged as a
name-resolution failure.  In the output logs, its slot holds exactly the
construct-and-run outcome of the most recently resolved collaborator
class — resolved at any earlier measurement type of this or a previous
platform — silently reused for the unknown name; only when no name has
ever resolved is the slot an instantiation failure (from the
`UnboundLocalError` raised by the unbound local). -/
theorem run_measurements_unknown_reuses_class
    (O : MeasurementOracles δdat δ Obj Res Lg) (dataset : δdat)
    (front back : List (String × List String)) (p : String)
    (pre post : List String) (u : String)
    (hu : resolveMeasurement u = none) :
    ∃ pl, (run_measurements O dataset
        (front ++ (p, pre ++ u :: post) :: back)).2.get? front.length
          = some (p, pl) ∧
      pl.get? pre.length = some (u,
        match lastResolved none (configNames front ++ pre) with
        | none => MLogEntry.failedToInstantiate
        | some cls => (mTypeOutcome O cls (O.subset dataset p).toOption).2) := by
  have hfrontlen : (foldPlatforms O dataset none front).2.2.length
      = front.length := foldPlatforms_logs_length O dataset none front
  refine ⟨(foldMTypes O ((O.subset dataset p).toOption)
      (lastResolved none (configNames front)) (pre ++ u :: post)).2.2, ?_, ?_⟩
  · show (foldPlatforms O dataset none
        (front ++ (p, pre ++ u :: post) :: back)).2.2.get? front.length = _
    rw [foldPlatforms_logs_append,
      List.get?_append_right (le_of_eq hfrontlen), hfrontlen, Nat.sub_self]
    rfl
  · rw [foldMTypes_logs_append]
    have hprelen : (foldMTypes O ((O.subset dataset p).toOption)
        (lastResolved none (configNames front)) pre).2.2.length = pre.length :=
      foldMTypes_logs_length O _ _ pre
    rw [List.get?_append_right (le_of_eq hprelen), hprelen, Nat.sub_self]
    have hstep : updateClass (lastResolved (lastResolved none
        (configNames front)) pre) u
        = lastResolved (lastResolved none (configNames front)) pre := by
      simp [updateClass, hu]
    simp only [foldMTypes, stepMType, hstep, List.get?]
    rw [show lastResolved none (configNames front ++ pre)
        = lastResolved (lastResolved none (configNames front)) pre by
      simp [lastResolved, List.foldl_append]]
    cases lastResolved (lastResolved none (configNames front)) pre with
    | none => rfl
    | some cls => rfl

/-- Witness for C9: in the configuration
`{twitter: [social_activity, bogus]}` on succeeding oracles, the unknown
name `bogus` silently reuses the class resolved for `social_activity`. -/
theorem run_measurements_unknown_reuses_class_witness :
    resolveMeasurement "bogus" = none ∧
      ∃ pl, (run_measurements okOracles ()
          (([] : List (String × List String)) ++
            ("twitter", ["social_activity"] ++ "bogus" :: []) :: [])).2.get?
            (List.length ([] : List (String × List String))) =
          some ("twitter", pl) ∧
        pl.get? (["social_activity"] : List String).length = some ("bogus",
          match lastResolved none
              (configNames ([] : List (String × List String)) ++
                ["social_activity"]) with
          | none => MLogEntry.failedToInstantiate
          | some cls => (mTypeOutcome okOracles cls
              (okOracles.subset () "twitter").toOption).2) :=
  ⟨rfl, run_measurements_unknown_reuses_class okOracles () [] [] "twitter"
    ["social_activity"] [] "bogus" rfl⟩

end Socialsim
